import Mathlib

/-!
Verification development for the EasyCompiler repository (src/demo.py):
a three-stage toy compiler (lexer, recursive-descent parser, x86 code
generator) for a small C-like language.  The Python classes are embedded
shallowly: the lexer and parser index state (an advancing position) is
passed explicitly, recursion is fuel-indexed so that every definition is
structurally recursive and computable by the kernel, and the code
generator is rendered in writer style (the lines it appends, together
with the threaded label counter, the only two pieces of generator state
the statement emitters touch).
-/

/-- Decimal digits of a positive numeral, least significant first.  The
first argument is fuel making the recursion structural; fuel at least the
number itself always suffices since the value shrinks by a factor of ten
each step. -/
def natDigitsAux : Nat → Nat → List Char
  | 0, _ => []
  | _, 0 => []
  | fuel + 1, n + 1 => Nat.digitChar ((n + 1) % 10) :: natDigitsAux fuel ((n + 1) / 10)

/-- Decimal rendering of a natural number, as Python's str / f-string
conversion produces it. -/
def pyStr (n : Nat) : String :=
  if n = 0 then "0" else String.mk (natDigitsAux n n).reverse

/-- Rendering of a (possibly negative) integer, as a Python f-string
produces it. -/
def intStr (i : Int) : String :=
  if i < 0 then "-" ++ pyStr i.natAbs else pyStr i.natAbs

/-- Python int() applied to a string of decimal digits (the only use in
the source is on NUMBER lexemes, which are nonempty digit runs). -/
def pyInt (s : String) : Nat :=
  s.data.foldl (fun a c => a * 10 + (c.toNat - 48)) 0

/-- ASCII fragment of Python's str.isspace, used by the whitespace skip of
Lexer.tokenize. -/
def pyIsSpace (c : Char) : Bool :=
  c = ' ' || c = '\t' || c = '\n' || c = '\r' || c = '\x0b' || c = '\x0c'

/-- ASCII fragment of Python's str.isalpha (identifier-start test). -/
def pyIsAlpha (c : Char) : Bool := c.isAlpha

/-- ASCII fragment of Python's str.isdigit. -/
def pyIsDigit (c : Char) : Bool := c.isDigit

/-- The identifier-continuation test of Lexer.tokenize: isalnum or an
underscore. -/
def pyIsIdentChar (c : Char) : Bool := pyIsAlpha c || pyIsDigit c || c = '_'

/-- A token is a pair of kind and lexeme, as the Python tuples
('KEYWORD', v), ('IDENTIFIER', v), ('NUMBER', v), ('SYMBOL', v). -/
abbrev Token := String × String

/-- Lexer.keywords. -/
def keywords : List String := ["int", "return", "if", "else", "while"]

/-- Lexer.symbols: the registered symbol set. -/
def symbols : List String :=
  ["=", ";", "(", ")", "\x7b", "\x7d", "+", "-", "*", "/", "<", ">", "==", "!="]

/-- The single-character members of Lexer.symbols. -/
def oneCharSyms : List Char :=
  ['=', ';', '(', ')', '\x7b', '\x7d', '+', '-', '*', '/', '<', '>']

/-- Longest prefix of characters satisfying p, together with the rest of
the input: the maximal-run scans of the identifier and number branches of
Lexer.tokenize. -/
def spanP (p : Char → Bool) : List Char → List Char × List Char
  | [] => ([], [])
  | c :: cs =>
    if p c then
      let r := spanP p cs
      (c :: r.1, r.2)
    else ([], c :: cs)

/-- The symbol branch of Lexer.tokenize: the registered symbols are tried
longest first (sorted by length, descending), so the two-character symbols
== and != are tried before any single-character symbol. -/
def matchSymbol : List Char → Option (String × List Char)
  | [] => none
  | [a] => if a ∈ oneCharSyms then some (String.mk [a], []) else none
  | a :: b :: rest =>
    if a = '=' && b = '=' then some ("==", rest)
    else if a = '!' && b = '=' then some ("!=", rest)
    else if a ∈ oneCharSyms then some (String.mk [a], b :: rest)
    else none

/-- Lexical failure.  The Exception raised by Lexer.tokenize carries only
the offending character in its message; outOfFuel is the artificial value
for fuel exhaustion (never reached when fuel is at least the input
length, since every loop iteration consumes at least one character). -/
inductive LexErr where
  | unknownChar (c : Char)
  | outOfFuel
  deriving DecidableEq, Repr

/-- The scanning loop of Lexer.tokenize, one iteration per fuel unit:
skip whitespace; scan an identifier/keyword; scan a number; otherwise try
the registered symbols and raise on an unknown character. -/
def tokenizeAux : Nat → List Char → Except LexErr (List Token)
  | _, [] => .ok []
  | 0, _ :: _ => .error .outOfFuel
  | fuel + 1, c :: cs =>
    if pyIsSpace c then
      tokenizeAux fuel cs
    else if pyIsAlpha c then
      let sp := spanP pyIsIdentChar (c :: cs)
      let word := String.mk sp.1
      let kind := if word ∈ keywords then "KEYWORD" else "IDENTIFIER"
      match tokenizeAux fuel sp.2 with
      | .ok ts => .ok ((kind, word) :: ts)
      | .error e => .error e
    else if pyIsDigit c then
      let sp := spanP pyIsDigit (c :: cs)
      match tokenizeAux fuel sp.2 with
      | .ok ts => .ok (("NUMBER", String.mk sp.1) :: ts)
      | .error e => .error e
    else
      match matchSymbol (c :: cs) with
      | some (sym, rest) =>
        match tokenizeAux fuel rest with
        | .ok ts => .ok (("SYMBOL", sym) :: ts)
        | .error e => .error e
      | none => .error (.unknownChar c)

/-- Lexer(code).tokenize(). -/
def tokenize (s : String) : Except LexErr (List Token) :=
  tokenizeAux s.data.length s.data

/-- Parser failure: the distinct Exceptions raised by the Parser methods,
plus the Python runtime errors that an unchecked tokens[pos + 1] access
(IndexError) and a subscript of None (TypeError) produce, plus the
artificial fuel-exhaustion value of this embedding. -/
inductive PErr where
  | syntaxError (expType : String) (expValue : Option String) (actType actValue : String)
  | unexpectedEOF
  | unknownStatement (v : String)
  | unexpectedToken (v : String)
  | indexError
  | noneSubscript
  | fuelOut
  deriving DecidableEq, Repr

/-- Expression nodes of the AST. -/
inductive Expr where
  | number (value : Nat)
  | var (name : String)
  | binop (op : String) (left right : Expr)
  deriving DecidableEq, Repr

/-- Statement nodes of the AST. -/
inductive Stmt where
  | ret (expression : Expr)
  | decl (name : String)
  | assign (name : String) (expression : Expr)
  | ifS (condition : Expr) (thenB elseB : List Stmt)
  | whileS (condition : Expr) (body : List Stmt)

/-- A function node of the AST. -/
structure Func where
  name : String
  body : List Stmt

/-- A program node of the AST. -/
structure Prog where
  functions : List Func

/-- Parser.current_token. -/
def currentToken (ts : List Token) (pos : Nat) : Option Token := ts[pos]?

/-- Parser.eat: check the current token's type (and value when one is
requested), returning the eaten token and the advanced position. -/
def eat (ts : List Token) (pos : Nat) (tokenType : String) (value : Option String) :
    Except PErr (Token × Nat) :=
  match currentToken ts pos with
  | none => .error .unexpectedEOF
  | some t =>
    if t.1 != tokenType || (match value with | some v => t.2 != v | none => false) then
      .error (.syntaxError tokenType value t.1 t.2)
    else .ok (t, pos + 1)

mutual

/-- Parser.parse / Parser.parse_program. -/
def parseProgram : Nat → List Token → Nat → Except PErr (Prog × Nat)
  | 0, _, _ => .error .fuelOut
  | n + 1, ts, pos => do
    let (fs, pos) ← parseFunctionsLoop n ts pos
    .ok ({ functions := fs }, pos)

/-- The function-collecting loop of parse_program: consume function
definitions while the current token exists and its value is int. -/
def parseFunctionsLoop : Nat → List Token → Nat → Except PErr (List Func × Nat)
  | 0, _, _ => .error .fuelOut
  | n + 1, ts, pos =>
    match currentToken ts pos with
    | some t =>
      if t.2 = "int" then do
        let (f, pos) ← parseFunction n ts pos
        let (fs, pos) ← parseFunctionsLoop n ts pos
        .ok (f :: fs, pos)
      else .ok ([], pos)
    | none => .ok ([], pos)
  termination_by structural n => n

/-- Parser.parse_function. -/
def parseFunction : Nat → List Token → Nat → Except PErr (Func × Nat)
  | 0, _, _ => .error .fuelOut
  | n + 1, ts, pos => do
    let (_, pos) ← eat ts pos "KEYWORD" (some "int")
    let (nameTok, pos) ← eat ts pos "IDENTIFIER" none
    let (_, pos) ← eat ts pos "SYMBOL" (some "(")
    let (_, pos) ← eat ts pos "SYMBOL" (some ")")
    let (_, pos) ← eat ts pos "SYMBOL" (some "\x7b")
    let (stmts, pos) ← parseStmtsLoop n ts pos
    let (_, pos) ← eat ts pos "SYMBOL" (some "\x7d")
    .ok ({ name := nameTok.2, body := stmts }, pos)

/-- The statement-collecting loop shared by parse_function, parse_if and
parse_while: consume statements while the current token exists and is not
a closing brace. -/
def parseStmtsLoop : Nat → List Token → Nat → Except PErr (List Stmt × Nat)
  | 0, _, _ => .error .fuelOut
  | n + 1, ts, pos =>
    match currentToken ts pos with
    | some t =>
      if t.2 != "\x7d" then do
        let (s, pos) ← parseStatement n ts pos
        let (rest, pos) ← parseStmtsLoop n ts pos
        .ok (s :: rest, pos)
      else .ok ([], pos)
    | none => .ok ([], pos)
  termination_by structural n => n

/-- Parser.parse_statement: dispatch on the current token.  The
assignment test reads tokens[pos + 1] with no bounds check, so a trailing
IDENTIFIER raises IndexError; when every test fails the unknown-statement
Exception is raised. -/
def parseStatement : Nat → List Token → Nat → Except PErr (Stmt × Nat)
  | 0, _, _ => .error .fuelOut
  | n + 1, ts, pos =>
    match currentToken ts pos with
    | none => .error .noneSubscript
    | some (k, v) =>
      if k = "KEYWORD" && v = "return" then parseReturn n ts pos
      else if k = "KEYWORD" && v = "int" then parseDeclaration n ts pos
      else if k = "IDENTIFIER" then
        match ts[pos + 1]? with
        | none => .error .indexError
        | some t2 =>
          if t2.2 = "=" then parseAssignment n ts pos
          else .error (.unknownStatement v)
      else if k = "KEYWORD" && v = "if" then parseIf n ts pos
      else if k = "KEYWORD" && v = "while" then parseWhile n ts pos
      else .error (.unknownStatement v)
  termination_by structural n => n

/-- Parser.parse_return. -/
def parseReturn : Nat → List Token → Nat → Except PErr (Stmt × Nat)
  | 0, _, _ => .error .fuelOut
  | n + 1, ts, pos => do
    let (_, pos) ← eat ts pos "KEYWORD" (some "return")
    let (e, pos) ← parseExpression n ts pos
    let (_, pos) ← eat ts pos "SYMBOL" (some ";")
    .ok (.ret e, pos)

/-- Parser.parse_declaration. -/
def parseDeclaration : Nat → List Token → Nat → Except PErr (Stmt × Nat)
  | 0, _, _ => .error .fuelOut
  | n + 1, ts, pos => do
    let (_, pos) ← eat ts pos "KEYWORD" (some "int")
    let (nameTok, pos) ← eat ts pos "IDENTIFIER" none
    let (_, pos) ← eat ts pos "SYMBOL" (some ";")
    .ok (.decl nameTok.2, pos)

/-- Parser.parse_assignment. -/
def parseAssignment : Nat → List Token → Nat → Except PErr (Stmt × Nat)
  | 0, _, _ => .error .fuelOut
  | n + 1, ts, pos => do
    let (nameTok, pos) ← eat ts pos "IDENTIFIER" none
    let (_, pos) ← eat ts pos "SYMBOL" (some "=")
    let (e, pos) ← parseExpression n ts pos
    let (_, pos) ← eat ts pos "SYMBOL" (some ";")
    .ok (.assign nameTok.2 e, pos)

/-- Parser.parse_if. -/
def parseIf : Nat → List Token → Nat → Except PErr (Stmt × Nat)
  | 0, _, _ => .error .fuelOut
  | n + 1, ts, pos => do
    let (_, pos) ← eat ts pos "KEYWORD" (some "if")
    let (_, pos) ← eat ts pos "SYMBOL" (some "(")
    let (cond, pos) ← parseExpression n ts pos
    let (_, pos) ← eat ts pos "SYMBOL" (some ")")
    let (_, pos) ← eat ts pos "SYMBOL" (some "\x7b")
    let (thenB, pos) ← parseStmtsLoop n ts pos
    let (_, pos) ← eat ts pos "SYMBOL" (some "\x7d")
    match currentToken ts pos with
    | some t =>
      if t.2 = "else" then do
        let (_, pos) ← eat ts pos "KEYWORD" (some "else")
        let (_, pos) ← eat ts pos "SYMBOL" (some "\x7b")
        let (elseB, pos) ← parseStmtsLoop n ts pos
        let (_, pos) ← eat ts pos "SYMBOL" (some "\x7d")
        .ok (.ifS cond thenB elseB, pos)
      else .ok (.ifS cond thenB [], pos)
    | none => .ok (.ifS cond thenB [], pos)
  termination_by structural n => n

/-- Parser.parse_while. -/
def parseWhile : Nat → List Token → Nat → Except PErr (Stmt × Nat)
  | 0, _, _ => .error .fuelOut
  | n + 1, ts, pos => do
    let (_, pos) ← eat ts pos "KEYWORD" (some "while")
    let (_, pos) ← eat ts pos "SYMBOL" (some "(")
    let (cond, pos) ← parseExpression n ts pos
    let (_, pos) ← eat ts pos "SYMBOL" (some ")")
    let (_, pos) ← eat ts pos "SYMBOL" (some "\x7b")
    let (body, pos) ← parseStmtsLoop n ts pos
    let (_, pos) ← eat ts pos "SYMBOL" (some "\x7d")
    .ok (.whileS cond body, pos)
  termination_by structural n => n

/-- Parser.parse_expression. -/
def parseExpression : Nat → List Token → Nat → Except PErr (Expr × Nat)
  | 0, _, _ => .error .fuelOut
  | n + 1, ts, pos => parseComparison n ts pos
  termination_by structural n => n

/-- Parser.parse_comparison. -/
def parseComparison : Nat → List Token → Nat → Except PErr (Expr × Nat)
  | 0, _, _ => .error .fuelOut
  | n + 1, ts, pos => do
    let (left, pos) ← parseAddition n ts pos
    parseCompLoop n ts pos left
  termination_by structural n => n

/-- The operator-folding loop of parse_comparison.  Its test also accepts
the lexemes <= and >=, which the lexer never produces. -/
def parseCompLoop : Nat → List Token → Nat → Expr → Except PErr (Expr × Nat)
  | 0, _, _, _ => .error .fuelOut
  | n + 1, ts, pos, left =>
    match currentToken ts pos with
    | some t =>
      if t.2 ∈ ["==", "!=", "<", ">", "<=", ">="] then do
        let (opTok, pos) ← eat ts pos "SYMBOL" none
        let (right, pos) ← parseAddition n ts pos
        parseCompLoop n ts pos (.binop opTok.2 left right)
      else .ok (left, pos)
    | none => .ok (left, pos)
  termination_by structural n => n

/-- Parser.parse_addition. -/
def parseAddition : Nat → List Token → Nat → Except PErr (Expr × Nat)
  | 0, _, _ => .error .fuelOut
  | n + 1, ts, pos => do
    let (left, pos) ← parseMultiplication n ts pos
    parseAddLoop n ts pos left
  termination_by structural n => n

/-- The operator-folding loop of parse_addition. -/
def parseAddLoop : Nat → List Token → Nat → Expr → Except PErr (Expr × Nat)
  | 0, _, _, _ => .error .fuelOut
  | n + 1, ts, pos, left =>
    match currentToken ts pos with
    | some t =>
      if t.2 ∈ ["+", "-"] then do
        let (opTok, pos) ← eat ts pos "SYMBOL" none
        let (right, pos) ← parseMultiplication n ts pos
        parseAddLoop n ts pos (.binop opTok.2 left right)
      else .ok (left, pos)
    | none => .ok (left, pos)
  termination_by structural n => n

/-- Parser.parse_multiplication. -/
def parseMultiplication : Nat → List Token → Nat → Except PErr (Expr × Nat)
  | 0, _, _ => .error .fuelOut
  | n + 1, ts, pos => do
    let (left, pos) ← parsePrimary n ts pos
    parseMulLoop n ts pos left
  termination_by structural n => n

/-- The operator-folding loop of parse_multiplication. -/
def parseMulLoop : Nat → List Token → Nat → Expr → Except PErr (Expr × Nat)
  | 0, _, _, _ => .error .fuelOut
  | n + 1, ts, pos, left =>
    match currentToken ts pos with
    | some t =>
      if t.2 ∈ ["*", "/"] then do
        let (opTok, pos) ← eat ts pos "SYMBOL" none
        let (right, pos) ← parsePrimary n ts pos
        parseMulLoop n ts pos (.binop opTok.2 left right)
      else .ok (left, pos)
    | none => .ok (left, pos)
  termination_by structural n => n

/-- Parser.parse_primary.  A None current token is subscripted before any
branch test, raising TypeError. -/
def parsePrimary : Nat → List Token → Nat → Except PErr (Expr × Nat)
  | 0, _, _ => .error .fuelOut
  | n + 1, ts, pos =>
    match currentToken ts pos with
    | none => .error .noneSubscript
    | some (k, v) =>
      if k = "NUMBER" then do
        let (_, pos) ← eat ts pos "NUMBER" none
        .ok (.number (pyInt v), pos)
      else if k = "IDENTIFIER" then do
        let (_, pos) ← eat ts pos "IDENTIFIER" none
        .ok (.var v, pos)
      else if v = "(" then do
        let (_, pos) ← eat ts pos "SYMBOL" (some "(")
        let (e, pos) ← parseExpression n ts pos
        let (_, pos) ← eat ts pos "SYMBOL" (some ")")
        .ok (e, pos)
      else .error (.unexpectedToken v)
  termination_by structural n => n

end

/-- Lex a source and parse it with Parser.parse_expression, keeping only
the resulting tree (a pipeline helper for the concrete scenarios). -/
def exprOfSource (s : String) : Option Expr :=
  match tokenize s with
  | .ok ts =>
    match parseExpression 64 ts 0 with
    | .ok (e, _) => some e
    | .error _ => none
  | .error _ => none

/-- CodeGenerator.generate_label: bump the counter and return the label
text L followed by the new counter value. -/
def generateLabel (c : Nat) : String × Nat := ("L" ++ pyStr (c + 1), c + 1)

/-- CodeGenerator.get_variable_offset: every variable name resolves to
the fixed stack offset -4. -/
def getVariableOffset (varName : String) : Int := -4

/-- CodeGenerator.generate_expression: the lines appended for an
expression.  An operator outside the recognized eight appends no
combining instruction. -/
def generateExpression : Expr → List String
  | .number v => ["mov $" ++ pyStr v ++ ", %eax"]
  | .var name => ["mov " ++ intStr (getVariableOffset name) ++ "(%ebp), %eax"]
  | .binop op l r =>
    generateExpression r ++ ["push %eax"] ++ generateExpression l ++ ["pop %ecx"] ++
    (if op = "+" then ["add %ecx, %eax"]
     else if op = "-" then ["sub %ecx, %eax"]
     else if op = "*" then ["imul %ecx, %eax"]
     else if op = "/" then ["cdq", "idiv %ecx"]
     else if op = "==" then ["cmp %ecx, %eax", "sete %al", "movzbl %al, %eax"]
     else if op = "!=" then ["cmp %ecx, %eax", "setne %al", "movzbl %al, %eax"]
     else if op = "<" then ["cmp %ecx, %eax", "setl %al", "movzbl %al, %eax"]
     else if op = ">" then ["cmp %ecx, %eax", "setg %al", "movzbl %al, %eax"]
     else [])

mutual

/-- CodeGenerator.generate_statement: the lines appended for a statement
and the label counter afterwards.  The generate_if and generate_while
method bodies are inlined into their dispatch arms so that the mutual
recursion with the statement loop stays structural.  In generate_if both
labels are generated up front and the conditional jump targets the else
label exactly when an else block is present. -/
def generateStatement : Stmt → Nat → List String × Nat
  | .ret e, c =>
    (generateExpression e ++ ["mov %eax, %ebx", "mov $1, %eax", "int $0x80"], c)
  | .decl _, c => ([], c)
  | .assign name e, c =>
    (generateExpression e ++
      ["mov %eax, " ++ intStr (getVariableOffset name) ++ "(%ebp)"], c)
  | .ifS cond thenB elseB, c =>
    let (elseLabel, c) := generateLabel c
    let (endLabel, c) := generateLabel c
    let head := generateExpression cond ++ ["cmp $0, %eax"] ++
      (if elseB.isEmpty then ["je " ++ endLabel] else ["je " ++ elseLabel])
    let (thenCode, c) := genStmtList thenB c
    if elseB.isEmpty then (head ++ thenCode ++ [endLabel ++ ":"], c)
    else
      let (elseCode, c) := genStmtList elseB c
      (head ++ thenCode ++ ["jmp " ++ endLabel, elseLabel ++ ":"] ++ elseCode ++
        [endLabel ++ ":"], c)
  | .whileS cond body, c =>
    let (startLabel, c) := generateLabel c
    let (endLabel, c) := generateLabel c
    let (bodyCode, c) := genStmtList body c
    ([startLabel ++ ":"] ++ generateExpression cond ++
      ["cmp $0, %eax", "je " ++ endLabel] ++ bodyCode ++
      ["jmp " ++ startLabel, endLabel ++ ":"], c)

/-- The statement loops of generate_function, generate_if and
generate_while: emit each statement in order. -/
def genStmtList : List Stmt → Nat → List String × Nat
  | [], c => ([], c)
  | s :: rest, c =>
    let (d, c) := generateStatement s c
    let (ds, c) := genStmtList rest c
    (d ++ ds, c)

end

/-- The distinct declared names among the top-level statements of a
function body, in first-declaration order: generate_function's local_vars
set (only its size and emptiness are ever consumed). -/
def localVarsOf (body : List Stmt) : List String :=
  body.foldl
    (fun acc s =>
      match s with
      | .decl n => if n ∈ acc then acc else acc ++ [n]
      | _ => acc)
    []

/-- CodeGenerator.generate_function: the lines appended for one function
and the label counter afterwards.  The function named main is labelled
_start; the frame-reservation line is emitted only when at least one
variable is declared. -/
def generateFunction (f : Func) (c : Nat) : List String × Nat :=
  let head := if f.name = "main" then "_start:" else f.name ++ ":"
  let lv := localVarsOf f.body
  let frame :=
    if lv.isEmpty then []
    else ["sub $" ++ pyStr (4 * lv.length) ++ ", %esp"]
  let (bodyCode, c) := genStmtList f.body c
  ([head, "push %ebp", "mov %esp, %ebp"] ++ frame ++ bodyCode ++
    ["mov %ebp, %esp", "pop %ebp", "ret", ""], c)

/-- CodeGenerator.generate on a program node: the two header directives
and a blank line, then one block per function, joined with newlines. -/
def generate (p : Prog) : String :=
  let step := fun (st : List String × Nat) f =>
    let (lines, c) := generateFunction f st.2
    (st.1 ++ lines, c)
  let st := p.functions.foldl step ([".section .text", ".globl _start", ""], 0)
  String.intercalate "\n" st.1

/-- The label counter after k successive generate_label calls on a fresh
CodeGenerator (whose label_counter starts at 0). -/
def counterAfter : Nat → Nat
  | 0 => 0
  | k + 1 => (generateLabel (counterAfter k)).2

/-- The label text returned by call number k + 1 of that call sequence. -/
def nthLabel (k : Nat) : String := (generateLabel (counterAfter k)).1

/-- A character no lexeme class of the lexer can ever consume: not
whitespace, not a letter, not a digit, not an underscore, and not a
character that can begin a registered symbol. -/
def badStart (c : Char) : Bool :=
  !pyIsSpace c && !pyIsAlpha c && !pyIsDigit c &&
    !decide (c ∈ oneCharSyms) && c != '!' && c != '_'

/-- Left-nested growth: e arises from base by repeatedly wrapping a binary
operation around it on the left side only, the shape the parser's
operator-folding loops build. -/
inductive LeftChain (base : Expr) : Expr → Prop where
  | refl : LeftChain base base
  | step (op : String) (l r : Expr) : LeftChain base l → LeftChain base (.binop op l r)

/-! ### Decimal rendering: helper lemmas -/

theorem digitChar_inj10 (a b : Nat) (ha : a < 10) (hb : b < 10)
    (h : Nat.digitChar a = Nat.digitChar b) : a = b := by
  have key : ∀ x : Fin 10, ∀ y : Fin 10,
      Nat.digitChar x.val = Nat.digitChar y.val → x = y := by decide
  have := key ⟨a, ha⟩ ⟨b, hb⟩ h
  exact congrArg Fin.val this

theorem natDigitsAux_ne_nil (f n : Nat) (hn : n ≠ 0) (hf : n ≤ f) :
    natDigitsAux f n ≠ [] := by
  cases f with
  | zero => omega
  | succ f =>
    cases n with
    | zero => omega
    | succ n => simp [natDigitsAux]

theorem natDigitsAux_inj : ∀ f1 n f2 m, n ≤ f1 → m ≤ f2 →
    natDigitsAux f1 n = natDigitsAux f2 m → n = m := by
  intro f1
  induction f1 with
  | zero =>
    intro n f2 m hn hm h
    have hn0 : n = 0 := by omega
    subst hn0
    cases m with
    | zero => rfl
    | succ m =>
      cases f2 with
      | zero => omega
      | succ f2 => simp [natDigitsAux] at h
  | succ f1 ih =>
    intro n f2 m hn hm h
    cases n with
    | zero =>
      cases m with
      | zero => rfl
      | succ m =>
        cases f2 with
        | zero => omega
        | succ f2 => simp [natDigitsAux] at h
    | succ n =>
      cases m with
      | zero => cases f2 <;> simp [natDigitsAux] at h
      | succ m =>
        cases f2 with
        | zero => omega
        | succ f2 =>
          simp only [natDigitsAux, List.cons.injEq] at h
          obtain ⟨h1, h2⟩ := h
          have e1 : (n + 1) % 10 = (m + 1) % 10 :=
            digitChar_inj10 _ _ (Nat.mod_lt _ (by omega)) (Nat.mod_lt _ (by omega)) h1
          have e2 : (n + 1) / 10 = (m + 1) / 10 := by
            refine ih ((n + 1) / 10) f2 ((m + 1) / 10) (by omega) (by omega) h2
          omega

theorem pyStr_ne_zero_str (m : Nat) (hm : m ≠ 0) : pyStr m ≠ "0" := by
  unfold pyStr
  rw [if_neg hm]
  intro h
  have hd := congrArg String.data h
  simp only [String.mk] at hd
  have hrev : natDigitsAux m m = ['0'] := by
    have := congrArg List.reverse hd
    simpa using this
  cases hmm : m with
  | zero => omega
  | succ k =>
    rw [hmm] at hrev
    simp only [natDigitsAux, List.cons.injEq] at hrev
    obtain ⟨h1, h2⟩ := hrev
    have hz : (k + 1) % 10 = 0 := by
      have : Nat.digitChar 0 = '0' := rfl
      exact digitChar_inj10 _ _ (Nat.mod_lt _ (by omega)) (by omega) (this ▸ h1)
    have hdiv : (k + 1) / 10 = 0 := by
      by_contra hne
      exact natDigitsAux_ne_nil k ((k + 1) / 10) hne (by omega) h2
    omega

theorem pyStr_inj (n m : Nat) (h : pyStr n = pyStr m) : n = m := by
  by_cases hn : n = 0
  · by_cases hm : m = 0
    · omega
    · subst hn
      exact absurd h.symm (by simpa [pyStr] using pyStr_ne_zero_str m hm)
  · by_cases hm : m = 0
    · subst hm
      exact absurd h (by simpa [pyStr] using pyStr_ne_zero_str n hn)
    · unfold pyStr at h
      rw [if_neg hn, if_neg hm] at h
      have hd := congrArg String.data h
      simp only [String.mk] at hd
      have : natDigitsAux n n = natDigitsAux m m := by
        have := congrArg List.reverse hd
        simpa using this
      exact natDigitsAux_inj n n m m (le_refl n) (le_refl m) this

theorem string_append_left_cancel (u s t : String) (h : u ++ s = u ++ t) : s = t := by
  have hd := congrArg String.data h
  rw [String.data_append, String.data_append] at hd
  exact String.ext (List.append_cancel_left hd)

/-! ### Lexer: helper lemmas -/

theorem spanP_append (p : Char → Bool) : ∀ l, (spanP p l).1 ++ (spanP p l).2 = l := by
  intro l
  induction l with
  | nil => simp [spanP]
  | cons c cs ih =>
    by_cases h : p c
    · simp [spanP, h, ih]
    · simp [spanP, h]

theorem spanP_fst_mem (p : Char → Bool) : ∀ l c, c ∈ (spanP p l).1 → p c = true := by
  intro l
  induction l with
  | nil => intro c h; simp [spanP] at h
  | cons a as ih =>
    intro c h
    by_cases ha : p a
    · simp only [spanP, ha, if_true] at h
      rcases List.mem_cons.mp h with h | h
      · subst h; exact ha
      · exact ih c h
    · simp [spanP, ha] at h

theorem spanP_snd_le (p : Char → Bool) : ∀ l, (spanP p l).2.length ≤ l.length := by
  intro l
  induction l with
  | nil => simp [spanP]
  | cons a as ih =>
    by_cases ha : p a
    · simp only [spanP, ha, if_true, List.length_cons]
      omega
    · simp [spanP, ha]

theorem spanP_cons_pos (p : Char → Bool) (c : Char) (cs : List Char) (h : p c = true) :
    spanP p (c :: cs) = (c :: (spanP p cs).1, (spanP p cs).2) := by
  simp [spanP, h]

theorem badStart_mem_false (a : Char) (h : a ∈ oneCharSyms) : badStart a = false := by
  simp [badStart, h]

theorem matchSymbol_sym : ∀ l s rest, matchSymbol l = some (s, rest) →
    s ∈ symbols ∧ s ≠ "<=" ∧ s ≠ ">=" := by
  have hsingle : ∀ a ∈ oneCharSyms,
      String.mk [a] ∈ symbols ∧ String.mk [a] ≠ "<=" ∧ String.mk [a] ≠ ">=" := by decide
  intro l s rest h
  match l with
  | [] => simp [matchSymbol] at h
  | [a] =>
    simp only [matchSymbol] at h
    split at h
    · next hmem =>
      simp only [Option.some.injEq, Prod.mk.injEq] at h
      exact h.1 ▸ hsingle a hmem
    · simp at h
  | a :: b :: r =>
    simp only [matchSymbol] at h
    split at h
    · simp only [Option.some.injEq, Prod.mk.injEq] at h
      rw [← h.1]
      refine ⟨by simp [symbols], by decide, by decide⟩
    · split at h
      · simp only [Option.some.injEq, Prod.mk.injEq] at h
        rw [← h.1]
        refine ⟨by simp [symbols], by decide, by decide⟩
      · split at h
        · next hmem =>
          simp only [Option.some.injEq, Prod.mk.injEq] at h
          exact h.1 ▸ hsingle a hmem
        · simp at h

theorem matchSymbol_rest : ∀ l s rest, matchSymbol l = some (s, rest) →
    ∃ con, l = con ++ rest ∧ 1 ≤ con.length ∧ ∀ c ∈ con, badStart c = false := by
  intro l s rest h
  match l with
  | [] => simp [matchSymbol] at h
  | [a] =>
    simp only [matchSymbol] at h
    split at h
    · next hmem =>
      simp only [Option.some.injEq, Prod.mk.injEq] at h
      refine ⟨[a], by simp [← h.2], by simp, ?_⟩
      intro c hc
      rcases List.mem_singleton.mp hc with rfl
      exact badStart_mem_false c hmem
    · simp at h
  | a :: b :: r =>
    simp only [matchSymbol] at h
    split at h
    · next h1 =>
      simp only [Bool.and_eq_true, decide_eq_true_eq] at h1
      simp only [Option.some.injEq, Prod.mk.injEq] at h
      refine ⟨[a, b], by simp [← h.2], by simp, ?_⟩
      intro c hc
      rcases h1 with ⟨rfl, rfl⟩
      rcases List.mem_cons.mp hc with rfl | hc
      · decide
      · rcases List.mem_singleton.mp hc with rfl
        decide
    · split at h
      · next h1 =>
        simp only [Bool.and_eq_true, decide_eq_true_eq] at h1
        simp only [Option.some.injEq, Prod.mk.injEq] at h
        refine ⟨[a, b], by simp [← h.2], by simp, ?_⟩
        intro c hc
        rcases h1 with ⟨rfl, rfl⟩
        rcases List.mem_cons.mp hc with rfl | hc
        · decide
        · rcases List.mem_singleton.mp hc with rfl
          decide
      · split at h
        · next hmem =>
          simp only [Option.some.injEq, Prod.mk.injEq] at h
          refine ⟨[a], by simp [← h.2], by simp, ?_⟩
          intro c hc
          rcases List.mem_singleton.mp hc with rfl
          exact badStart_mem_false c hmem
        · simp at h

theorem matchSymbol_none_head : ∀ a l, matchSymbol (a :: l) = none → a ∉ oneCharSyms := by
  intro a l h
  match l with
  | [] =>
    simp only [matchSymbol] at h
    split at h
    · simp at h
    · next hmem => exact hmem
  | b :: r =>
    simp only [matchSymbol] at h
    split at h
    · simp at h
    · split at h
      · simp at h
      · split at h
        · simp at h
        · next hmem => exact hmem

theorem strmk_cons_ne_le (c : Char) (l : List Char)
    (hc : pyIsAlpha c = true ∨ pyIsDigit c = true) : String.mk (c :: l) ≠ "<=" := by
  intro h
  have hd : c :: l = ['<', '='] := congrArg String.data h
  have hc' : c = '<' := ((List.cons.injEq c l '<' ['=']).mp hd).1
  subst hc'
  rcases hc with hc | hc
  · exact absurd hc (by decide)
  · exact absurd hc (by decide)

theorem strmk_cons_ne_ge (c : Char) (l : List Char)
    (hc : pyIsAlpha c = true ∨ pyIsDigit c = true) : String.mk (c :: l) ≠ ">=" := by
  intro h
  have hd : c :: l = ['>', '='] := congrArg String.data h
  have hc' : c = '>' := ((List.cons.injEq c l '>' ['=']).mp hd).1
  subst hc'
  rcases hc with hc | hc
  · exact absurd hc (by decide)
  · exact absurd hc (by decide)

theorem badStart_component (c : Char) (h : badStart c = true) :
    pyIsSpace c = false ∧ pyIsAlpha c = false ∧ pyIsDigit c = false ∧
      c ∉ oneCharSyms ∧ c ≠ '!' ∧ c ≠ '_' := by
  simp only [badStart, Bool.and_eq_true, Bool.not_eq_true', bne_iff_ne, ne_eq,
    decide_eq_false_iff_not] at h
  obtain ⟨⟨⟨⟨⟨hA, hB⟩, hC⟩, hD⟩, hE⟩, hF⟩ := h
  exact ⟨hA, hB, hC, hD, hE, hF⟩

theorem badStart_not_identChar (c : Char) (h : badStart c = true) :
    pyIsIdentChar c = false := by
  obtain ⟨_, h2, h3, _, _, h6⟩ := badStart_component c h
  simp [pyIsIdentChar, h2, h3, h6]

theorem tokenizeAux_tokens : ∀ fuel cs ts, tokenizeAux fuel cs = .ok ts →
    ∀ k v, (k, v) ∈ ts → (k = "SYMBOL" → v ∈ symbols) ∧ v ≠ "<=" ∧ v ≠ ">=" := by
  intro fuel
  induction fuel with
  | zero =>
    intro cs ts h k v hm
    cases cs with
    | nil =>
      simp only [tokenizeAux, Except.ok.injEq] at h
      subst h
      simp at hm
    | cons c cs => simp [tokenizeAux] at h
  | succ f ih =>
    intro cs ts h k v hm
    cases cs with
    | nil =>
      simp only [tokenizeAux, Except.ok.injEq] at h
      subst h
      simp at hm
    | cons c cs =>
      simp only [tokenizeAux] at h
      by_cases h1 : pyIsSpace c = true
      · rw [if_pos h1] at h
        exact ih cs ts h k v hm
      · rw [if_neg h1] at h
        by_cases h2 : pyIsAlpha c = true
        · rw [if_pos h2] at h
          cases hrec : tokenizeAux f (spanP pyIsIdentChar (c :: cs)).2 with
          | error e => rw [hrec] at h; simp at h
          | ok ts' =>
            rw [hrec] at h
            simp only [Except.ok.injEq] at h
            subst h
            rcases List.mem_cons.mp hm with heq | hm'
            · rw [Prod.mk.injEq] at heq
              obtain ⟨hk, hv⟩ := heq
              have hident : pyIsIdentChar c = true := by simp [pyIsIdentChar, h2]
              rw [spanP_cons_pos pyIsIdentChar c cs hident] at hv
              refine ⟨?_, ?_, ?_⟩
              · intro hS
                rw [hS] at hk
                split at hk <;> simp at hk
              · subst hv; exact strmk_cons_ne_le c _ (Or.inl h2)
              · subst hv; exact strmk_cons_ne_ge c _ (Or.inl h2)
            · exact ih _ ts' hrec k v hm'
        · rw [if_neg h2] at h
          by_cases h3 : pyIsDigit c = true
          · rw [if_pos h3] at h
            cases hrec : tokenizeAux f (spanP pyIsDigit (c :: cs)).2 with
            | error e => rw [hrec] at h; simp at h
            | ok ts' =>
              rw [hrec] at h
              simp only [Except.ok.injEq] at h
              subst h
              rcases List.mem_cons.mp hm with heq | hm'
              · rw [Prod.mk.injEq] at heq
                obtain ⟨hk, hv⟩ := heq
                rw [spanP_cons_pos pyIsDigit c cs h3] at hv
                refine ⟨?_, ?_, ?_⟩
                · intro hS
                  rw [hS] at hk
                  simp at hk
                · subst hv; exact strmk_cons_ne_le c _ (Or.inr h3)
                · subst hv; exact strmk_cons_ne_ge c _ (Or.inr h3)
              · exact ih _ ts' hrec k v hm'
          · rw [if_neg h3] at h
            cases hms : matchSymbol (c :: cs) with
            | none => rw [hms] at h; simp at h
            | some pr =>
              obtain ⟨sym, rest⟩ := pr
              simp only [hms] at h
              cases hrec : tokenizeAux f rest with
              | error e => rw [hrec] at h; simp at h
              | ok ts' =>
                rw [hrec] at h
                simp only [Except.ok.injEq] at h
                subst h
                rcases List.mem_cons.mp hm with heq | hm'
                · rw [Prod.mk.injEq] at heq
                  obtain ⟨hk, hv⟩ := heq
                  obtain ⟨hsym, hle, hge⟩ := matchSymbol_sym _ _ _ hms
                  subst hv
                  exact ⟨fun _ => hsym, hle, hge⟩
                · exact ih _ ts' hrec k v hm'

theorem tokenizeAux_badStart : ∀ fuel cs, cs.length ≤ fuel →
    (∃ c ∈ cs, badStart c = true) →
    ∃ c, tokenizeAux fuel cs = .error (.unknownChar c) ∧
      pyIsSpace c = false ∧ pyIsAlpha c = false ∧ pyIsDigit c = false ∧
      c ∉ oneCharSyms := by
  intro fuel
  induction fuel with
  | zero =>
    intro cs hlen hex
    obtain ⟨b, hb, _⟩ := hex
    cases cs with
    | nil => simp at hb
    | cons c cs => simp at hlen
  | succ f ih =>
    intro cs hlen hex
    obtain ⟨b, hbmem, hbbad⟩ := hex
    cases cs with
    | nil => simp at hbmem
    | cons c cs =>
      simp only [List.length_cons] at hlen
      simp only [tokenizeAux]
      by_cases h1 : pyIsSpace c = true
      · rw [if_pos h1]
        apply ih cs (by omega)
        rcases List.mem_cons.mp hbmem with rfl | hmem
        · exact absurd hbbad (by simp [badStart, h1])
        · exact ⟨b, hmem, hbbad⟩
      · rw [if_neg h1]
        by_cases h2 : pyIsAlpha c = true
        · rw [if_pos h2]
          have hident : pyIsIdentChar c = true := by simp [pyIsIdentChar, h2]
          have hbrest : b ∈ (spanP pyIsIdentChar (c :: cs)).2 := by
            have hsplit := spanP_append pyIsIdentChar (c :: cs)
            have hmem2 : b ∈ (spanP pyIsIdentChar (c :: cs)).1 ++
                (spanP pyIsIdentChar (c :: cs)).2 := by
              rw [hsplit]; exact hbmem
            rcases List.mem_append.mp hmem2 with hin | hin
            · have := spanP_fst_mem pyIsIdentChar (c :: cs) b hin
              rw [badStart_not_identChar b hbbad] at this
              exact absurd this (by simp)
            · exact hin
          have hlen' : (spanP pyIsIdentChar (c :: cs)).2.length ≤ f := by
            rw [spanP_cons_pos pyIsIdentChar c cs hident]
            have := spanP_snd_le pyIsIdentChar cs
            simp only []
            omega
          obtain ⟨c', hc', hprops⟩ := ih _ hlen' ⟨b, hbrest, hbbad⟩
          refine ⟨c', ?_, hprops⟩
          simp [hc']
        · rw [if_neg h2]
          by_cases h3 : pyIsDigit c = true
          · rw [if_pos h3]
            have hbrest : b ∈ (spanP pyIsDigit (c :: cs)).2 := by
              have hsplit := spanP_append pyIsDigit (c :: cs)
              have hmem2 : b ∈ (spanP pyIsDigit (c :: cs)).1 ++
                  (spanP pyIsDigit (c :: cs)).2 := by
                rw [hsplit]; exact hbmem
              rcases List.mem_append.mp hmem2 with hin | hin
              · have := spanP_fst_mem pyIsDigit (c :: cs) b hin
                have hbd := (badStart_component b hbbad).2.2.1
                rw [hbd] at this
                exact absurd this (by simp)
              · exact hin
            have hlen' : (spanP pyIsDigit (c :: cs)).2.length ≤ f := by
              rw [spanP_cons_pos pyIsDigit c cs h3]
              have := spanP_snd_le pyIsDigit cs
              simp only []
              omega
            obtain ⟨c', hc', hprops⟩ := ih _ hlen' ⟨b, hbrest, hbbad⟩
            refine ⟨c', ?_, hprops⟩
            simp [hc']
          · rw [if_neg h3]
            cases hms : matchSymbol (c :: cs) with
            | none =>
              refine ⟨c, by simp, by simpa using h1, by simpa using h2,
                by simpa using h3, matchSymbol_none_head c cs hms⟩
            | some pr =>
              obtain ⟨sym, rest⟩ := pr
              obtain ⟨con, hcon, hconlen, hconbad⟩ := matchSymbol_rest _ _ _ hms
              have hbrest : b ∈ rest := by
                rw [hcon] at hbmem
                rcases List.mem_append.mp hbmem with hin | hin
                · rw [hconbad b hin] at hbbad
                  exact absurd hbbad (by simp)
                · exact hin
              have hlen' : rest.length ≤ f := by
                have hlc := congrArg List.length hcon
                simp only [List.length_cons, List.length_append] at hlc
                omega
              obtain ⟨c', hc', hprops⟩ := ih rest hlen' ⟨b, hbrest, hbbad⟩
              refine ⟨c', ?_, hprops⟩
              simp [hms, hc']

/-! ### Parser: helper lemmas -/

theorem leftChain_trans {a b c : Expr} (h1 : LeftChain a b) (h2 : LeftChain b c) :
    LeftChain a c := by
  induction h2 with
  | refl => exact h1
  | step op l r _ ih => exact .step op l r ih

theorem parseAddLoop_chain : ∀ fuel ts pos left e p,
    parseAddLoop fuel ts pos left = .ok (e, p) → LeftChain left e := by
  intro fuel
  induction fuel with
  | zero => intro ts pos left e p h; simp [parseAddLoop] at h
  | succ n ih =>
    intro ts pos left e p h
    simp only [parseAddLoop] at h
    cases hc : currentToken ts pos with
    | none =>
      simp only [hc, Except.ok.injEq, Prod.mk.injEq] at h
      exact h.1 ▸ LeftChain.refl
    | some t =>
      simp only [hc] at h
      by_cases hin : t.2 ∈ ["+", "-"]
      · rw [if_pos hin] at h
        cases he : eat ts pos "SYMBOL" none with
        | error er => simp only [he, Bind.bind, Except.bind] at h; exact Except.noConfusion h
        | ok pr =>
          obtain ⟨opTok, pos1⟩ := pr
          simp only [he, Bind.bind, Except.bind] at h
          cases hmu : parseMultiplication n ts pos1 with
          | error er => simp only [hmu, Except.bind] at h; exact Except.noConfusion h
          | ok pr2 =>
            obtain ⟨right, pos2⟩ := pr2
            simp only [hmu, Except.bind] at h
            exact leftChain_trans (.step opTok.2 left right .refl) (ih ts pos2 _ e p h)
      · rw [if_neg hin] at h
        simp only [Except.ok.injEq, Prod.mk.injEq] at h
        exact h.1 ▸ LeftChain.refl

theorem parseCompLoop_chain : ∀ fuel ts pos left e p,
    parseCompLoop fuel ts pos left = .ok (e, p) → LeftChain left e := by
  intro fuel
  induction fuel with
  | zero => intro ts pos left e p h; simp [parseCompLoop] at h
  | succ n ih =>
    intro ts pos left e p h
    simp only [parseCompLoop] at h
    cases hc : currentToken ts pos with
    | none =>
      simp only [hc, Except.ok.injEq, Prod.mk.injEq] at h
      exact h.1 ▸ LeftChain.refl
    | some t =>
      simp only [hc] at h
      by_cases hin : t.2 ∈ ["==", "!=", "<", ">", "<=", ">="]
      · rw [if_pos hin] at h
        cases he : eat ts pos "SYMBOL" none with
        | error er => simp only [he, Bind.bind, Except.bind] at h; exact Except.noConfusion h
        | ok pr =>
          obtain ⟨opTok, pos1⟩ := pr
          simp only [he, Bind.bind, Except.bind] at h
          cases ha : parseAddition n ts pos1 with
          | error er => simp only [ha, Except.bind] at h; exact Except.noConfusion h
          | ok pr2 =>
            obtain ⟨right, pos2⟩ := pr2
            simp only [ha, Except.bind] at h
            exact leftChain_trans (.step opTok.2 left right .refl) (ih ts pos2 _ e p h)
      · rw [if_neg hin] at h
        simp only [Except.ok.injEq, Prod.mk.injEq] at h
        exact h.1 ▸ LeftChain.refl

theorem parseMulLoop_chain : ∀ fuel ts pos left e p,
    parseMulLoop fuel ts pos left = .ok (e, p) → LeftChain left e := by
  intro fuel
  induction fuel with
  | zero => intro ts pos left e p h; simp [parseMulLoop] at h
  | succ n ih =>
    intro ts pos left e p h
    simp only [parseMulLoop] at h
    cases hc : currentToken ts pos with
    | none =>
      simp only [hc, Except.ok.injEq, Prod.mk.injEq] at h
      exact h.1 ▸ LeftChain.refl
    | some t =>
      simp only [hc] at h
      by_cases hin : t.2 ∈ ["*", "/"]
      · rw [if_pos hin] at h
        cases he : eat ts pos "SYMBOL" none with
        | error er => simp only [he, Bind.bind, Except.bind] at h; exact Except.noConfusion h
        | ok pr =>
          obtain ⟨opTok, pos1⟩ := pr
          simp only [he, Bind.bind, Except.bind] at h
          cases hpr : parsePrimary n ts pos1 with
          | error er => simp only [hpr, Except.bind] at h; exact Except.noConfusion h
          | ok pr2 =>
            obtain ⟨right, pos2⟩ := pr2
            simp only [hpr, Except.bind] at h
            exact leftChain_trans (.step opTok.2 left right .refl) (ih ts pos2 _ e p h)
      · rw [if_neg hin] at h
        simp only [Except.ok.injEq, Prod.mk.injEq] at h
        exact h.1 ▸ LeftChain.refl

/-! ### Claims -/

/-- Claim C1: get_variable_offset returns the fixed stack offset -4 for
every variable name, so every assignment statement stores to -4(%ebp) and
every variable read loads from -4(%ebp); in a function with two or more
declared variables an assignment to the second variable therefore writes
the first one's storage slot. -/
theorem claim_C1 :
    (∀ name, getVariableOffset name = -4) ∧
    (∀ name e c, generateStatement (.assign name e) c =
      (generateExpression e ++ ["mov %eax, -4(%ebp)"], c)) ∧
    (∀ name, generateExpression (.var name) = ["mov -4(%ebp), %eax"]) :=
  ⟨fun _ => rfl, fun _ _ _ => rfl, fun _ => rfl⟩

/-- Claim C2 (amended): for every source containing a character no lexeme
class can consume (not whitespace, not a letter, not a digit, not an
underscore, and not able to begin a registered symbol), tokenize fails
with the lexical error carrying an offending character; the offset of
that character is not part of the raised error. -/
theorem claim_C2 (s : String) (h : ∃ c ∈ s.data, badStart c = true) :
    ∃ c, tokenize s = .error (.unknownChar c) ∧
      pyIsSpace c = false ∧ pyIsAlpha c = false ∧ pyIsDigit c = false ∧
      c ∉ oneCharSyms :=
  tokenizeAux_badStart s.data.length s.data (le_refl _) h

/-- Claim C2, counterexample to the original claim: the sources with @ at
zero-based offsets 0 and 1 raise the very same error value, which carries
only the character, so no reading of the raised error can report the
exact zero-based offset of @ in both sources. -/
theorem claim_C2_counterexample :
    tokenize "@" = .error (.unknownChar '@') ∧
    tokenize " @" = .error (.unknownChar '@') ∧
    ¬ ∃ posOf : LexErr → Nat,
        posOf (.unknownChar '@') = 0 ∧ posOf (.unknownChar '@') = 1 := by
  refine ⟨rfl, rfl, ?_⟩
  rintro ⟨posOf, h0, h1⟩
  rw [h0] at h1
  exact absurd h1 (by decide)

/-- Claim C2, witness of the amended claim at the source "@". -/
theorem claim_C2_witness :
    (∃ c ∈ ("@" : String).data, badStart c = true) ∧
    (∃ c, tokenize "@" = .error (.unknownChar c) ∧
      pyIsSpace c = false ∧ pyIsAlpha c = false ∧ pyIsDigit c = false ∧
      c ∉ oneCharSyms) :=
  ⟨by decide, claim_C2 "@" (by decide)⟩

/-- Claim C3 (amended): a token required past the end of the stream makes
eat fail with the UnexpectedEOF error, and parsing the closing-brace-less
source whose body statements are all complete fails with UnexpectedEOF
(the companion counterexample shows a truncation at an identifier in
statement position fails with the out-of-range access instead). -/
theorem claim_C3 :
    (∀ ts pos tokenType value, ts.length ≤ pos →
      eat ts pos tokenType value = .error .unexpectedEOF) ∧
    (tokenize "int main() \x7b return 1;" =
      .ok [("KEYWORD", "int"), ("IDENTIFIER", "main"), ("SYMBOL", "("), ("SYMBOL", ")"),
        ("SYMBOL", "\x7b"), ("KEYWORD", "return"), ("NUMBER", "1"), ("SYMBOL", ";")] ∧
     parseProgram 64 [("KEYWORD", "int"), ("IDENTIFIER", "main"), ("SYMBOL", "("),
        ("SYMBOL", ")"), ("SYMBOL", "\x7b"), ("KEYWORD", "return"), ("NUMBER", "1"),
        ("SYMBOL", ";")] 0 = .error .unexpectedEOF) := by
  constructor
  · intro ts pos tokenType value h
    unfold eat currentToken
    rw [List.getElem?_eq_none h]
  · exact ⟨rfl, rfl⟩

/-- Claim C3, counterexample to the original claim: the source missing
its closing brace whose last token is an identifier at statement position
fails with the IndexError of the unchecked tokens[pos + 1] read, not with
UnexpectedEOF. -/
theorem claim_C3_counterexample :
    tokenize "int main() \x7b x" =
      .ok [("KEYWORD", "int"), ("IDENTIFIER", "main"), ("SYMBOL", "("), ("SYMBOL", ")"),
        ("SYMBOL", "\x7b"), ("IDENTIFIER", "x")] ∧
    parseProgram 64 [("KEYWORD", "int"), ("IDENTIFIER", "main"), ("SYMBOL", "("),
      ("SYMBOL", ")"), ("SYMBOL", "\x7b"), ("IDENTIFIER", "x")] 0 =
      .error .indexError ∧
    PErr.indexError ≠ PErr.unexpectedEOF :=
  ⟨rfl, rfl, by decide⟩

/-- Claim C3, witness: eat at the end of an empty token stream. -/
theorem claim_C3_witness : eat ([] : List Token) 0 "SYMBOL" none = .error .unexpectedEOF :=
  claim_C3.1 [] 0 "SYMBOL" none (by decide)

/-- Claim C4: every SYMBOL token the lexer produces has its lexeme in the
registered symbol set, and no token of any kind ever has lexeme <= or >=,
so the parser's comparison-tier branches for those two lexemes can never
fire on lexer output. -/
theorem claim_C4 (s : String) (ts : List Token) (h : tokenize s = .ok ts) :
    ∀ k v, (k, v) ∈ ts → (k = "SYMBOL" → v ∈ symbols) ∧ v ≠ "<=" ∧ v ≠ ">=" :=
  tokenizeAux_tokens s.data.length s.data ts h

/-- Claim C4, witness at the source with the two-character symbol ==. -/
theorem claim_C4_witness :
    tokenize "1==2" = .ok [("NUMBER", "1"), ("SYMBOL", "=="), ("NUMBER", "2")] ∧
    (("SYMBOL" = "SYMBOL" → "==" ∈ symbols) ∧ "==" ≠ "<=" ∧ "==" ≠ ">=") :=
  ⟨rfl, claim_C4 "1==2" [("NUMBER", "1"), ("SYMBOL", "=="), ("NUMBER", "2")] rfl
    "SYMBOL" "==" (by decide)⟩

/-- Claim C5: successive generate_label calls on a fresh generator return
L1, L2, L3, ...; the counter strictly increases with each call and any
two distinct calls return distinct label identifiers. -/
theorem claim_C5 :
    (∀ k, nthLabel k = "L" ++ pyStr (k + 1)) ∧
    (∀ k, counterAfter k < counterAfter (k + 1)) ∧
    (∀ i j, i ≠ j → nthLabel i ≠ nthLabel j) := by
  have hcount : ∀ k, counterAfter k = k := by
    intro k
    induction k with
    | zero => rfl
    | succ k ih => simp [counterAfter, generateLabel, ih]
  have hlab : ∀ k, nthLabel k = "L" ++ pyStr (k + 1) := by
    intro k
    simp [nthLabel, generateLabel, hcount]
  refine ⟨hlab, ?_, ?_⟩
  · intro k
    rw [hcount, hcount]
    omega
  · intro i j hij hcontra
    apply hij
    rw [hlab, hlab] at hcontra
    have := pyStr_inj (i + 1) (j + 1) (string_append_left_cancel "L" _ _ hcontra)
    omega

/-- Claim C5, witness: the first two generated labels differ. -/
theorem claim_C5_witness : nthLabel 0 ≠ nthLabel 1 :=
  claim_C5.2.2 0 1 (by decide)

/-- Claim C6: for a function declaring at least one local variable (N
distinct declared names), generate_function emits the function label,
then push %ebp and mov %esp, %ebp, then the single frame line
sub $4*N, %esp with 4*N rendered numerically, before any statement code
of the body, which is followed by the epilogue. -/
theorem claim_C6 (f : Func) (c : Nat) (h : 0 < (localVarsOf f.body).length) :
    generateFunction f c =
      ((if f.name = "main" then "_start:" else f.name ++ ":") ::
        "push %ebp" :: "mov %esp, %ebp" ::
        ("sub $" ++ pyStr (4 * (localVarsOf f.body).length) ++ ", %esp") ::
        ((genStmtList f.body c).1 ++ ["mov %ebp, %esp", "pop %ebp", "ret", ""]),
       (genStmtList f.body c).2) := by
  have hne : (localVarsOf f.body).isEmpty = false := by
    cases hl : localVarsOf f.body with
    | nil => rw [hl] at h; simp at h
    | cons a l => rfl
  unfold generateFunction
  rcases hg : genStmtList f.body c with ⟨bc, c2⟩
  simp [hne, hg]

/-- Claim C6, witness at a one-variable main function. -/
theorem claim_C6_witness :
    0 < (localVarsOf [Stmt.decl "a", Stmt.ret (Expr.number 2)]).length ∧
    generateFunction { name := "main", body := [Stmt.decl "a", Stmt.ret (Expr.number 2)] } 0 =
      (["_start:", "push %ebp", "mov %esp, %ebp", "sub $4, %esp",
        "mov $2, %eax", "mov %eax, %ebx", "mov $1, %eax", "int $0x80",
        "mov %ebp, %esp", "pop %ebp", "ret", ""], 0) :=
  ⟨by decide,
    (claim_C6 { name := "main", body := [Stmt.decl "a", Stmt.ret (Expr.number 2)] } 0
      (by decide)).trans rfl⟩

/-- Claim C7: the expression source 1+2*3 parses to the tree in which
multiplication binds tighter than addition. -/
theorem claim_C7 :
    exprOfSource "1+2*3" =
      some (.binop "+" (.number 1) (.binop "*" (.number 2) (.number 3))) := rfl

/-- Claim C8: a return statement emits the code of its expression
followed by exactly mov %eax, %ebx; mov $1, %eax; int $0x80 — the exit
system call with the expression value as status, never a subroutine
return. -/
theorem claim_C8 (e : Expr) (c : Nat) :
    generateStatement (.ret e) c =
      (generateExpression e ++ ["mov %eax, %ebx", "mov $1, %eax", "int $0x80"], c) := rfl

/-- Claim C9: each precedence tier's operator loop only ever wraps new
operations around the accumulated expression on the left, so repeated
operators of equal precedence fold into a left-leaning chain; in
particular 1-2-3 parses to (1-2)-3. -/
theorem claim_C9 :
    (∀ fuel ts pos left e p,
      parseCompLoop fuel ts pos left = .ok (e, p) → LeftChain left e) ∧
    (∀ fuel ts pos left e p,
      parseAddLoop fuel ts pos left = .ok (e, p) → LeftChain left e) ∧
    (∀ fuel ts pos left e p,
      parseMulLoop fuel ts pos left = .ok (e, p) → LeftChain left e) ∧
    exprOfSource "1-2-3" =
      some (.binop "-" (.binop "-" (.number 1) (.number 2)) (.number 3)) :=
  ⟨parseCompLoop_chain, parseAddLoop_chain, parseMulLoop_chain, rfl⟩

/-- Claim C9, witness: the addition-tier loop run on the tokens of 1-2-3
from the first operator onward returns a left-leaning chain over the
initial left operand 1. -/
theorem claim_C9_witness :
    LeftChain (.number 1) (.binop "-" (.binop "-" (.number 1) (.number 2)) (.number 3)) :=
  claim_C9.2.1 8
    [("NUMBER", "1"), ("SYMBOL", "-"), ("NUMBER", "2"), ("SYMBOL", "-"), ("NUMBER", "3")]
    1 (.number 1) (.binop "-" (.binop "-" (.number 1) (.number 2)) (.number 3)) 5 rfl

/-- Claim C10: when parse_statement is dispatched on an IDENTIFIER that
is the last token of the stream, the unchecked tokens[pos + 1] read fails
with the out-of-range IndexError, not with any error of the parser's own
taxonomy. -/
theorem claim_C10 (fuel : Nat) (ts : List Token) (pos : Nat) (v : String)
    (h1 : ts[pos]? = some ("IDENTIFIER", v)) (h2 : pos + 1 = ts.length) :
    parseStatement (fuel + 1) ts pos = .error .indexError := by
  have h3 : ts[pos + 1]? = none := List.getElem?_eq_none (by omega)
  simp [parseStatement, currentToken, h1, h3]

/-- Claim C10, witness at the one-token stream holding an identifier. -/
theorem claim_C10_witness :
    parseStatement 1 [("IDENTIFIER", "x")] 0 = .error .indexError :=
  claim_C10 0 [("IDENTIFIER", "x")] 0 "x" rfl rfl
